import Mathlib

/-!
Verification development for the kubernetes-lightweight-logger log-shipping
daemon (src/logger/src/index.js).  The JavaScript source is shallowly
embedded: the global mutable maps `logBatches` and `blobClients` become an
explicit `State`, async sink calls (Azure `appendBlock`, local
`fs.appendFile`, `createIfNotExists`, `mkdirSync`) become entries of an
event trace, and their success or failure is supplied by boolean oracles
(`azureOk`, `localOk`); a JavaScript exception is modelled by returning the
state reached so far together with a `false` completion flag, so that side
effects performed before the throw persist, exactly as in the source.
`JSON.parse` is a host-language builtin, so its outcome on a given line is
an oracle input `JParse`: either failure (the catch branch) or an object
whose `stream` and `log` member accesses yield a string or `undefined`.
-/

namespace KLL

/-- JavaScript `String.prototype.includes` restricted to the character
sequences that appear here: `containsSub needle hay` holds iff `needle`
occurs contiguously in `hay`. -/
def containsSub (needle : List Char) : List Char → Bool
  | [] => needle.isEmpty
  | x :: t => needle.isPrefixOf (x :: t) || containsSub needle t

/-- String-level wrapper for `containsSub` (JS `hay.includes(needle)`). -/
def strContains (hay needle : String) : Bool :=
  containsSub needle.data hay.data

/-- JavaScript `toLowerCase`, modelled on the ASCII range (all strings
occurring in the claims are ASCII): map every character to its lowercase
form. -/
def jsToLower (s : String) : String := ⟨s.data.map Char.toLower⟩

/-- The `LOG_OUTPUT_DESTINATION` configuration value (index.js line 17):
"AZURE", "LOCAL" or "BOTH". -/
inductive Destination
  | AZURE
  | LOCAL
  | BOTH
deriving DecidableEq, Repr

/-- Whether the remote (Azure) sink is active: the source tests
`LOG_OUTPUT_DESTINATION === 'AZURE' || LOG_OUTPUT_DESTINATION === 'BOTH'`. -/
def destAzure : Destination → Bool
  | .AZURE => true
  | .BOTH => true
  | .LOCAL => false

/-- Whether the local sink is active: the source tests
`LOG_OUTPUT_DESTINATION === "LOCAL" || LOG_OUTPUT_DESTINATION === "BOTH"`. -/
def destLocal : Destination → Bool
  | .LOCAL => true
  | .BOTH => true
  | .AZURE => false

/-- Process-wide configuration, read once at startup (index.js lines 17-29). -/
structure Config where
  logOutputDestination : Destination
  storeByDate : Bool
  filterByMessage : Option (List String)

/-- `BATCH_SIZE_THRESHOLD` (index.js line 26). -/
def BATCH_SIZE_THRESHOLD : Nat := 50000

/-- `LOCAL_LOG_DIRECTORY` default value (index.js line 19). -/
def LOCAL_LOG_DIRECTORY : String := "/kubernetes-logs"

/-- A UTC calendar date, standing for the current system clock value. -/
structure Date where
  year : Nat
  month : Nat
  day : Nat
deriving DecidableEq, Repr

/-- Zero-padding to two digits, as produced by `toISOString` for month and
day fields. -/
def pad2 (n : Nat) : String :=
  if n < 10 then "0" ++ toString n else toString n

/-- Zero-padding to four digits, as produced by `toISOString` for the year
field. -/
def pad4 (n : Nat) : String :=
  if n < 10 then "000" ++ toString n
  else if n < 100 then "00" ++ toString n
  else if n < 1000 then "0" ++ toString n
  else toString n

/-- `getDateString` (index.js lines 233-236): `toISOString().slice(0, 10)`,
i.e. the UTC date as `YYYY-MM-DD` with zero-padded fields. -/
def getDateString (today : Date) : String :=
  pad4 today.year ++ "-" ++ pad2 today.month ++ "-" ++ pad2 today.day

/-- One record of a per-container batch: the source pushes
`{ containerName, content }` (index.js line 187). -/
structure LogRecord where
  containerName : String
  content : String
deriving DecidableEq, Repr

/-- An Azure append-blob client handle; all the source ever consults is its
bound blob name (`blockBlobClient.name`). -/
structure Handle where
  name : String
deriving DecidableEq, Repr

/-- The mutable module-level maps of index.js (lines 56-57): `logBatches`
maps a container name to its resident batch (a missing key behaves as the
empty batch for every operation the source performs), and `blobClients`
maps a container name to its current append-blob handle. -/
structure State where
  logBatches : String → List LogRecord
  blobClients : String → Option Handle

/-- Externally observable calls made during a flush or ingest step. -/
inductive Event
  | createIfNotExists (blobName : String)
  | azureAppend (blobName : String) (body : String)
  | ensureDir (dirPath : String)
  | localAppend (filePath : String) (body : String)
  | flushCalled (containerName : String)
deriving DecidableEq, Repr

/-- JavaScript `path.join` for the two-argument uses in this source. -/
def pathJoin (a b : String) : String := a ++ "/" ++ b

/-- Splitting a character sequence at `/` separators (the segments of a
path). -/
def splitSlash : List Char → List (List Char)
  | [] => [[]]
  | ch :: t =>
      let r := splitSlash t
      if ch = '/' then [] :: r
      else
        match r with
        | [] => [[ch]]
        | seg :: rest => (ch :: seg) :: rest

/-- JavaScript `path.dirname`: everything before the final `/` separator
(`"."` when there is none). -/
def pathDirname (p : String) : String :=
  let parts := (splitSlash p.data).map fun l => (⟨l⟩ : String)
  if parts.length ≤ 1 then "." else String.intercalate "/" parts.dropLast

/-- Outcome of the host `JSON.parse` on a raw line: `failed` is the thrown
`SyntaxError` (the catch branch of index.js lines 141-146), and
`obj stream log` is a successful parse, recording what the member accesses
`data.stream` and `data.log` yield (`none` = `undefined` or a non-string
value, which compares unequal to `"stderr"` just as in JS). -/
inductive JParse
  | failed
  | obj (stream : Option String) (log : Option String)
deriving DecidableEq, Repr

/-- JavaScript template-literal stringification of a member access result:
`undefined` interpolates as the text `"undefined"`. -/
def jsDisplay : Option String → String
  | some s => s
  | none => "undefined"

/-- The line classifier inside `onLogLine` (index.js lines 134-146): on a
successful parse, level is `error` iff `data.stream === "stderr"` and the
content is `` `${containerName}/[${level}] : ${data.log}` ``; on a parse
failure, level is `error` iff the lowercased raw line contains `"error"`
and the content is `` `${containerName}/[${level}] : ${line}\n` ``. -/
def classify (containerName line : String) (p : JParse) : String :=
  match p with
  | .obj stream log =>
      let isError := stream = some "stderr"
      let level := if isError then "error" else "info"
      containerName ++ "/[" ++ level ++ "] : " ++ jsDisplay log
  | .failed =>
      let isError := strContains (jsToLower line) "error"
      let level := if isError then "error" else "info"
      containerName ++ "/[" ++ level ++ "] : " ++ line ++ "\n"

/-- The message filter at the top of `onLogLine` (index.js lines 126-132):
`shouldLog` starts `true` and is overwritten by
`filterByMessage.some(element => line.toLowerCase().includes(element))`
only when the filter list is present and non-empty. -/
def shouldKeep (filters : Option (List String)) (line : String) : Bool :=
  match filters with
  | none => true
  | some fs =>
      if 0 < fs.length then fs.any (fun e => strContains (jsToLower line) e)
      else true

/-- `addToLogBatch` (index.js lines 183-188): lazily create the batch and
push `{ containerName, content }` at its end. -/
def addToLogBatch (containerName content : String)
    (batches : String → List LogRecord) : String → List LogRecord :=
  fun x =>
    if x = containerName then
      batches containerName ++ [⟨containerName, content⟩]
    else batches x

/-- Clearing a batch in place, `logBatches[containerName].length = 0`
(index.js line 209). -/
def clearBatch (containerName : String)
    (batches : String → List LogRecord) : String → List LogRecord :=
  fun x => if x = containerName then [] else batches x

/-- The expected destination blob name computed inside
`ensureBlobAppendClient` (index.js lines 217-220). -/
def expectedDestBlobName (cfg : Config) (today : Date)
    (containerName : String) : String :=
  if cfg.storeByDate then
    getDateString today ++ "/" ++ containerName ++ ".log"
  else containerName ++ ".log"

/-- `ensureBlobAppendClient` (index.js lines 214-230): recompute the
expected blob name from the clock and the `STORE_BY_DATE` flag; when there
is no stored client for the container or its bound name differs from the
expected name, get a fresh append-blob client for the expected name, call
`createIfNotExists` on it and store it.  Returns the client to use, the
updated `blobClients` map and the trace of remote calls made. -/
def ensureBlobAppendClient (cfg : Config) (today : Date)
    (containerName : String) (clients : String → Option Handle) :
    Handle × (String → Option Handle) × List Event :=
  let expected := expectedDestBlobName cfg today containerName
  let stale : Bool :=
    match clients containerName with
    | none => true
    | some h => h.name != expected
  if stale then
    let h : Handle := ⟨expected⟩
    (h, fun x => if x = containerName then some h else clients x,
      [Event.createIfNotExists expected])
  else
    (match clients containerName with
     | some h => h
     | none => ⟨expected⟩, clients, [])

/-- `appendToLocalLogFile` (index.js lines 155-163): ensure the parent
directory of `path.join(LOCAL_LOG_DIRECTORY, fileName)` exists, then
`fs.appendFile` the string `content + '\n'` to that path. -/
def appendToLocalLogFile (fileName content : String) : List Event :=
  let filePath := pathJoin LOCAL_LOG_DIRECTORY fileName
  [Event.ensureDir (pathDirname filePath),
   Event.localAppend filePath (content ++ "\n")]

/-- `uploadLogBatch` (index.js lines 191-211).  When the batch is
non-empty: build `batchContent` by joining record contents with a newline
and appending one newline; if the Azure sink is active, run
`ensureBlobAppendClient` and `appendBlock` the content (an `azureOk = false`
oracle makes `appendBlock` reject, propagating the exception with the
client-map update already applied and the batch left untouched); if the
local sink is active, append to `` `${getDateString()}/${containerName}.log` ``
under the local directory (a `localOk = false` oracle makes the file append
reject likewise); only after both active sinks succeed is the batch cleared.
Returns the new state, the event trace, and `true` iff no exception was
thrown. -/
def uploadLogBatch (cfg : Config) (today : Date) (azureOk localOk : Bool)
    (containerName : String) (st : State) : State × List Event × Bool :=
  let batch := st.logBatches containerName
  if 0 < batch.length then
    let batchContent :=
      String.intercalate "\n" (batch.map LogRecord.content) ++ "\n"
    if destAzure cfg.logOutputDestination then
      let hc := ensureBlobAppendClient cfg today containerName st.blobClients
      let st1 : State := { st with blobClients := hc.2.1 }
      let ev1 := hc.2.2 ++ [Event.azureAppend hc.1.name batchContent]
      if azureOk then
        if destLocal cfg.logOutputDestination then
          let localFileName :=
            getDateString today ++ "/" ++ containerName ++ ".log"
          let ev2 := appendToLocalLogFile localFileName batchContent
          if localOk then
            ({ st1 with logBatches := clearBatch containerName st1.logBatches },
              ev1 ++ ev2, true)
          else (st1, ev1 ++ ev2, false)
        else
          ({ st1 with logBatches := clearBatch containerName st1.logBatches },
            ev1, true)
      else (st1, ev1, false)
    else
      if destLocal cfg.logOutputDestination then
        let localFileName :=
          getDateString today ++ "/" ++ containerName ++ ".log"
        let ev2 := appendToLocalLogFile localFileName batchContent
        if localOk then
          ({ st with logBatches := clearBatch containerName st.logBatches },
            ev2, true)
        else (st, ev2, false)
      else
        ({ st with logBatches := clearBatch containerName st.logBatches },
          [], true)
  else (st, [], true)

/-- `onLogLine` (index.js lines 125-152): apply the message filter to the
raw line; if kept, classify it and push the record, then, when the batch
length has reached `BATCH_SIZE_THRESHOLD`, await an immediate
`uploadLogBatch` for this container before returning.  The `flushCalled`
event marks that in-line flush invocation. -/
def onLogLine (cfg : Config) (today : Date) (azureOk localOk : Bool)
    (containerName line : String) (p : JParse) (st : State) :
    State × List Event × Bool :=
  if shouldKeep cfg.filterByMessage line then
    let content := classify containerName line p
    let st1 : State :=
      { st with logBatches := addToLogBatch containerName content st.logBatches }
    if BATCH_SIZE_THRESHOLD ≤ (st1.logBatches containerName).length then
      let r := uploadLogBatch cfg today azureOk localOk containerName st1
      (r.1, Event.flushCalled containerName :: r.2.1, r.2.2)
    else (st1, [], true)
  else (st, [], true)

/-- `uploadAllLogBatches` (index.js lines 166-170): iterate the known
containers in order and `await uploadLogBatch` for each; a rejection aborts
the loop, so containers later in the iteration are not flushed in that
pass.  `okOf` supplies the per-container sink oracles. -/
def uploadAllLogBatches (cfg : Config) (today : Date)
    (okOf : String → Bool × Bool) (containers : List String) (st : State) :
    State × List Event × Bool :=
  match containers with
  | [] => (st, [], true)
  | c :: rest =>
      let r := uploadLogBatch cfg today (okOf c).1 (okOf c).2 c st
      if r.2.2 then
        let r2 := uploadAllLogBatches cfg today okOf rest r.1
        (r2.1, r.2.1 ++ r2.2.1, r2.2.2)
      else (r.1, r.2.1, false)

/-- `gracefulShutdown` (index.js lines 239-250): try one
`uploadAllLogBatches` pass; on success log the completion message and on a
throw log the shutdown error; in the `finally` block log and call
`process.exit(0)`.  Returns final state, event trace, console log lines,
and the exit code. -/
def gracefulShutdown (cfg : Config) (today : Date)
    (okOf : String → Bool × Bool) (containers : List String) (st : State) :
    State × List Event × List String × Nat :=
  let r := uploadAllLogBatches cfg today okOf containers st
  let logs :=
    if r.2.2 then ["All log batches have been uploaded."]
    else ["Error during shutdown:"]
  (r.1, r.2.1, logs ++ ["Graceful shutdown completed. Exiting."], 0)

/-- Appending a sequence of contents for one container in order. -/
def appendAll (containerName : String) (cs : List String)
    (batches : String → List LogRecord) : String → List LogRecord :=
  cs.foldl (fun acc s => addToLogBatch containerName s acc) batches

/-- The empty initial state: both module-level maps start empty. -/
def initState : State :=
  { logBatches := fun _ => [], blobClients := fun _ => none }

/-- Recognizer for remote append events, used to count the append calls a
flush makes against the remote sink. -/
def isAzureAppendEv : Event → Bool
  | .azureAppend _ _ => true
  | _ => false

/-- Recognizer for local file-append events. -/
def isLocalAppendEv : Event → Bool
  | .localAppend _ _ => true
  | _ => false

/-- A sample one-record batch entry for container `"c"`. -/
def recX : LogRecord := ⟨"c", "x"⟩

/-- Remote-only configuration without date partitioning. -/
def cfgAzure : Config := ⟨.AZURE, false, none⟩

/-- Local-only configuration without date partitioning. -/
def cfgLocal : Config := ⟨.LOCAL, false, none⟩

/-- Dual-sink configuration without date partitioning. -/
def cfgBoth : Config := ⟨.BOTH, false, none⟩

/-- Remote-only configuration with date partitioning enabled. -/
def cfgAzureDated : Config := ⟨.AZURE, true, none⟩

/-- The UTC date 2024-03-05. -/
def dMar5 : Date := ⟨2024, 3, 5⟩

/-- The UTC date 2024-03-06. -/
def dMar6 : Date := ⟨2024, 3, 6⟩

/-- A state whose only resident record is `recX` for container `"c"`. -/
def stOne : State :=
  { logBatches := fun x => if x = "c" then [recX] else [],
    blobClients := fun _ => none }

/-- `stOne` with a stored append client still bound to the 2024-03-05 blob
name for container `"c"`. -/
def stRoll : State :=
  { stOne with
    blobClients := fun x =>
      if x = "c" then some ⟨"2024-03-05/c.log"⟩ else none }

/-- A state holding the classified nginx record of the end-to-end example. -/
def stNginx : State :=
  { logBatches := fun x =>
      if x = "nginx" then [⟨"nginx", "nginx/[info] : listening on 80\n"⟩]
      else [],
    blobClients := fun _ => none }

/-- A state whose batch for `"c"` holds one record fewer than the size
threshold. -/
def stBig : State :=
  { logBatches := fun x => if x = "c" then List.replicate 49999 recX else [],
    blobClients := fun _ => none }

/-- A state with one resident record for each of the containers `"a"`,
`"b"` and `"d"`. -/
def st3 : State :=
  { logBatches := fun x =>
      if x = "a" ∨ x = "b" ∨ x = "d" then [⟨x, "x"⟩] else [],
    blobClients := fun _ => none }

/-- Sink oracles that make the remote append fail exactly for container
`"b"`. -/
def okB : String → Bool × Bool := fun x => (x != "b", true)

/-- Sink oracles that make every remote append fail. -/
def okNone : String → Bool × Bool := fun _ => (false, true)

/-- Sink oracles under which every sink call succeeds. -/
def okAll : String → Bool × Bool := fun _ => (true, true)

lemma appendAll_batch (c : String) (cs : List String)
    (b : String → List LogRecord) :
    appendAll c cs b c = b c ++ cs.map (fun s => (⟨c, s⟩ : LogRecord)) := by
  induction cs generalizing b with
  | nil => simp [appendAll]
  | cons s t ih =>
      simp only [appendAll, List.foldl_cons, List.map_cons]
      have h := ih (addToLogBatch c s b)
      simp only [appendAll] at h
      rw [h]
      simp [addToLogBatch]

lemma upload_clears (cfg : Config) (today : Date) (c : String) (st : State) :
    (uploadLogBatch cfg today true true c st).1.logBatches c = [] := by
  by_cases h : 0 < (st.logBatches c).length
  · cases hA : destAzure cfg.logOutputDestination <;>
    cases hL : destLocal cfg.logOutputDestination <;>
    simp [uploadLogBatch, h, hA, hL, clearBatch]
  · have h0 : (st.logBatches c).length = 0 := by omega
    have hnil : st.logBatches c = [] := List.eq_nil_of_length_eq_zero h0
    simp [uploadLogBatch, hnil]

lemma upload_preserves_other (cfg : Config) (today : Date)
    (azureOk localOk : Bool) (c d : String) (st : State) (hdc : d ≠ c) :
    (uploadLogBatch cfg today azureOk localOk c st).1.logBatches d =
      st.logBatches d := by
  by_cases h : 0 < (st.logBatches c).length
  · cases hA : destAzure cfg.logOutputDestination <;>
    cases hL : destLocal cfg.logOutputDestination <;>
    cases azureOk <;> cases localOk <;>
    simp [uploadLogBatch, h, hA, hL, clearBatch, hdc]
  · have h0 : (st.logBatches c).length = 0 := by omega
    have hnil : st.logBatches c = [] := List.eq_nil_of_length_eq_zero h0
    simp [uploadLogBatch, hnil]

lemma upload_fail_keeps_batches (cfg : Config) (today : Date)
    (azureOk localOk : Bool) (c : String) (st : State)
    (hfail : (uploadLogBatch cfg today azureOk localOk c st).2.2 = false) :
    (uploadLogBatch cfg today azureOk localOk c st).1.logBatches =
      st.logBatches := by
  by_cases h : 0 < (st.logBatches c).length
  · cases hA : destAzure cfg.logOutputDestination <;>
    cases hL : destLocal cfg.logOutputDestination <;>
    cases azureOk <;> cases localOk <;>
    simp_all [uploadLogBatch, h, hA, hL]
  · have h0 : (st.logBatches c).length = 0 := by omega
    have hnil : st.logBatches c = [] := List.eq_nil_of_length_eq_zero h0
    simp [uploadLogBatch, hnil]

lemma ensure_name (cfg : Config) (today : Date) (c : String)
    (clients : String → Option Handle) :
    (ensureBlobAppendClient cfg today c clients).1.name =
      expectedDestBlobName cfg today c := by
  unfold ensureBlobAppendClient
  cases hc : clients c with
  | none => simp [hc]
  | some h =>
      by_cases hname : h.name = expectedDestBlobName cfg today c
      · simp [hc, hname]
      · simp [hc, hname]

lemma ensure_stores (cfg : Config) (today : Date) (c : String)
    (clients : String → Option Handle) :
    (ensureBlobAppendClient cfg today c clients).2.1 c =
      some (ensureBlobAppendClient cfg today c clients).1 := by
  unfold ensureBlobAppendClient
  cases hc : clients c with
  | none => simp [hc]
  | some h =>
      by_cases hname : h.name = expectedDestBlobName cfg today c
      · simp [hc, hname]
      · simp [hc, hname]

lemma ensure_events_stale (cfg : Config) (today : Date) (c : String)
    (clients : String → Option Handle)
    (hstale : ∀ h, clients c = some h →
      h.name ≠ expectedDestBlobName cfg today c) :
    (ensureBlobAppendClient cfg today c clients).2.2 =
      [Event.createIfNotExists (expectedDestBlobName cfg today c)] := by
  unfold ensureBlobAppendClient
  cases hc : clients c with
  | none => simp [hc]
  | some h => simp [hc, hstale h hc]

lemma ensure_no_azure_append (cfg : Config) (today : Date) (c : String)
    (clients : String → Option Handle) (n body : String) :
    Event.azureAppend n body ∉ (ensureBlobAppendClient cfg today c clients).2.2 := by
  unfold ensureBlobAppendClient
  cases hc : clients c with
  | none => simp [hc]
  | some h =>
      by_cases hname : h.name = expectedDestBlobName cfg today c
      · simp [hc, hname]
      · simp [hc, hname]

lemma upload_azure_append_name (cfg : Config) (today : Date)
    (azureOk localOk : Bool) (c : String) (st : State) (n body : String)
    (hmem : Event.azureAppend n body ∈
      (uploadLogBatch cfg today azureOk localOk c st).2.1) :
    n = expectedDestBlobName cfg today c := by
  by_cases h : 0 < (st.logBatches c).length
  · have hens := ensure_name cfg today c st.blobClients
    have hno := ensure_no_azure_append cfg today c st.blobClients n body
    cases hA : destAzure cfg.logOutputDestination <;>
    cases hL : destLocal cfg.logOutputDestination <;>
    cases azureOk <;> cases localOk <;>
    simp_all [uploadLogBatch, h, hA, hL, appendToLocalLogFile]
  · have h0 : (st.logBatches c).length = 0 := by omega
    have hnil : st.logBatches c = [] := List.eq_nil_of_length_eq_zero h0
    simp [uploadLogBatch, hnil] at hmem

lemma uploadAll_preserves_notin (cfg : Config) (today : Date)
    (okOf : String → Bool × Bool) (containers : List String) (st : State)
    (d : String) (hd : d ∉ containers) :
    (uploadAllLogBatches cfg today okOf containers st).1.logBatches d =
      st.logBatches d := by
  induction containers generalizing st with
  | nil => simp [uploadAllLogBatches]
  | cons c rest ih =>
      have hdc : d ≠ c := by
        intro hEq
        exact hd (hEq ▸ List.mem_cons_self c rest)
      have hdrest : d ∉ rest := fun hmem => hd (List.mem_cons_of_mem c hmem)
      have hpres := upload_preserves_other cfg today (okOf c).1 (okOf c).2 c d st hdc
      unfold uploadAllLogBatches
      by_cases hok : (uploadLogBatch cfg today (okOf c).1 (okOf c).2 c st).2.2
      · simp only [hok, if_true]
        rw [ih _ hdrest, hpres]
      · simp only [hok, if_false]
        exact hpres

lemma ensure_events_cases (cfg : Config) (today : Date) (c : String)
    (clients : String → Option Handle) :
    (ensureBlobAppendClient cfg today c clients).2.2 = [] ∨
      (ensureBlobAppendClient cfg today c clients).2.2 =
        [Event.createIfNotExists (expectedDestBlobName cfg today c)] := by
  unfold ensureBlobAppendClient
  cases hc : clients c with
  | none => right; simp [hc]
  | some h =>
      by_cases hname : h.name = expectedDestBlobName cfg today c
      · left; simp [hc, hname]
      · right; simp [hc, hname]

lemma upload_no_flushCalled (cfg : Config) (today : Date)
    (azureOk localOk : Bool) (c d : String) (st : State) :
    Event.flushCalled d ∉ (uploadLogBatch cfg today azureOk localOk c st).2.1 := by
  by_cases h : 0 < (st.logBatches c).length
  · rcases ensure_events_cases cfg today c st.blobClients with hev | hev <;>
    cases hA : destAzure cfg.logOutputDestination <;>
    cases hL : destLocal cfg.logOutputDestination <;>
    cases azureOk <;> cases localOk <;>
    simp_all [uploadLogBatch, h, hA, hL, appendToLocalLogFile]
  · have h0 : (st.logBatches c).length = 0 := by omega
    have hnil : st.logBatches c = [] := List.eq_nil_of_length_eq_zero h0
    simp [uploadLogBatch, hnil]

lemma uploadAll_cons_ok (cfg : Config) (today : Date)
    (okOf : String → Bool × Bool) (a : String) (t : List String) (st : State)
    (ha : (uploadLogBatch cfg today (okOf a).1 (okOf a).2 a st).2.2 = true) :
    uploadAllLogBatches cfg today okOf (a :: t) st =
      ((uploadAllLogBatches cfg today okOf t
          (uploadLogBatch cfg today (okOf a).1 (okOf a).2 a st).1).1,
        (uploadLogBatch cfg today (okOf a).1 (okOf a).2 a st).2.1 ++
          (uploadAllLogBatches cfg today okOf t
            (uploadLogBatch cfg today (okOf a).1 (okOf a).2 a st).1).2.1,
        (uploadAllLogBatches cfg today okOf t
          (uploadLogBatch cfg today (okOf a).1 (okOf a).2 a st).1).2.2) := by
  conv_lhs => rw [uploadAllLogBatches]
  simp only [ha, if_true]

lemma uploadAll_cons_fail (cfg : Config) (today : Date)
    (okOf : String → Bool × Bool) (a : String) (t : List String) (st : State)
    (ha : (uploadLogBatch cfg today (okOf a).1 (okOf a).2 a st).2.2 = false) :
    uploadAllLogBatches cfg today okOf (a :: t) st =
      ((uploadLogBatch cfg today (okOf a).1 (okOf a).2 a st).1,
        (uploadLogBatch cfg today (okOf a).1 (okOf a).2 a st).2.1, false) := by
  conv_lhs => rw [uploadAllLogBatches]
  simp only [ha, Bool.false_eq_true, if_false]

/-- C10: a flush pass over all containers (the timer tick and the shutdown
pass both run `uploadAllLogBatches`) iterates the containers sequentially
and awaits each flush; when the flush for container `c` throws, the pass
stops with the exception (`false` flag), so every container after `c` in
the iteration is not flushed during that pass and its batch remains
resident, unchanged from before the pass. -/
theorem sequential_flush_pass_aborts_C10 (cfg : Config) (today : Date)
    (okOf : String → Bool × Bool) (pre : List String) (c : String)
    (post : List String) (st : State)
    (h1 : (uploadAllLogBatches cfg today okOf pre st).2.2 = true)
    (h2 : (uploadLogBatch cfg today (okOf c).1 (okOf c).2 c
      (uploadAllLogBatches cfg today okOf pre st).1).2.2 = false) :
    (uploadAllLogBatches cfg today okOf (pre ++ c :: post) st).2.2 = false
    ∧ ∀ d, d ∈ post → d ∉ pre → d ≠ c →
        (uploadAllLogBatches cfg today okOf (pre ++ c :: post) st).1.logBatches d =
          st.logBatches d := by
  induction pre generalizing st with
  | nil =>
      have h2n : (uploadLogBatch cfg today (okOf c).1 (okOf c).2 c st).2.2 = false := by
        simpa [uploadAllLogBatches] using h2
      have hkeep := upload_fail_keeps_batches cfg today (okOf c).1 (okOf c).2 c st h2n
      rw [List.nil_append, uploadAll_cons_fail cfg today okOf c post st h2n]
      exact ⟨rfl, fun d _ _ _ => by rw [hkeep]⟩
  | cons a t ih =>
      by_cases ha : (uploadLogBatch cfg today (okOf a).1 (okOf a).2 a st).2.2
      · have hcons := uploadAll_cons_ok cfg today okOf a t st ha
        have h1t : (uploadAllLogBatches cfg today okOf t
            (uploadLogBatch cfg today (okOf a).1 (okOf a).2 a st).1).2.2 = true := by
          rw [hcons] at h1
          exact h1
        have h2t : (uploadLogBatch cfg today (okOf c).1 (okOf c).2 c
            (uploadAllLogBatches cfg today okOf t
              (uploadLogBatch cfg today (okOf a).1 (okOf a).2 a st).1).1).2.2 = false := by
          rw [hcons] at h2
          exact h2
        obtain ⟨hflag, hbatch⟩ := ih _ h1t h2t
        rw [List.cons_append,
          uploadAll_cons_ok cfg today okOf a (t ++ c :: post) st ha]
        constructor
        · exact hflag
        · intro d hdpost hdpre hdc
          have hda : d ≠ a := by
            intro hEq
            exact hdpre (hEq ▸ List.mem_cons_self a t)
          have hdt : d ∉ t := fun hmem => hdpre (List.mem_cons_of_mem a hmem)
          have hstep := hbatch d hdpost hdt hdc
          rw [hstep]
          exact upload_preserves_other cfg today (okOf a).1 (okOf a).2 a d st hda
      · exfalso
        rw [uploadAll_cons_fail cfg today okOf a t st (by simpa using ha)] at h1
        simp at h1

lemma str_append_assoc (a b c : String) : a ++ b ++ c = a ++ (b ++ c) := by
  apply String.ext
  simp [String.data_append]

lemma level_content_eq (c lev rest mid : String)
    (hm : ("/[" : String) ++ lev ++ "] : " = mid) :
    c ++ "/[" ++ lev ++ "] : " ++ rest = c ++ mid ++ rest := by
  rw [← hm]
  simp only [str_append_assoc]

/-- C1: for every sequence of records appended to a container via the batch
store, the resident batch at flush time lists them in exactly their append
(FIFO) order, and immediately after a completed flush-time drain the
container's resident batch is empty. -/
theorem batchStore_fifo_drain_C1 (cfg : Config) (today : Date) (c : String)
    (cs : List String) (b : String → List LogRecord) :
    appendAll c cs b c = b c ++ cs.map (fun s => (⟨c, s⟩ : LogRecord))
    ∧ (uploadLogBatch cfg today true true c
        { initState with
          logBatches := appendAll c cs initState.logBatches }).1.logBatches c =
      [] :=
  ⟨appendAll_batch c cs b, upload_clears cfg today c _⟩

/-- C5: the line classifier is total (it never raises), and produces
`"<container>/[error] : <log>"` when the parsed object's stream field is
`"stderr"`, `"<container>/[info] : <log>"` for any other parsed object (no
trailing newline added), and on parse failure
`"<container>/[<level>] : <raw>\n"` with a trailing newline, where the
level is `error` exactly when the lowercased raw line contains the
substring `"error"`. -/
theorem classifier_formats_C5 (c line : String) (s l : Option String) :
    (s = some "stderr" →
      classify c line (.obj s l) = c ++ "/[error] : " ++ jsDisplay l)
    ∧ (s ≠ some "stderr" →
      classify c line (.obj s l) = c ++ "/[info] : " ++ jsDisplay l)
    ∧ (strContains (jsToLower line) "error" = true →
      classify c line .failed = c ++ "/[error] : " ++ line ++ "\n")
    ∧ (strContains (jsToLower line) "error" = false →
      classify c line .failed = c ++ "/[info] : " ++ line ++ "\n") := by
  refine ⟨?_, ?_, ?_, ?_⟩ <;> intro h <;> simp only [classify, h] <;> simp [h]
  · rw [level_content_eq c "error" (jsDisplay l) "/[error] : " (by decide)]
  · rw [level_content_eq c "info" (jsDisplay l) "/[info] : " (by decide)]
  · rw [level_content_eq c "error" line "/[error] : " (by decide)]
  · rw [level_content_eq c "info" line "/[info] : " (by decide)]

/-- C5 witness: the classifier equations instantiated at concrete lines of
each shape. -/
theorem classifier_formats_C5_witness :
    classify "nginx" "raw" (.obj (some "stderr") (some "boom\n")) =
      "nginx" ++ "/[error] : " ++ jsDisplay (some "boom\n")
    ∧ classify "nginx" "raw" (.obj (some "stdout") (some "listening on 80\n")) =
      "nginx" ++ "/[info] : " ++ jsDisplay (some "listening on 80\n")
    ∧ classify "c" "Some ERROR here" .failed =
      "c" ++ "/[error] : " ++ "Some ERROR here" ++ "\n"
    ∧ classify "c" "all fine" .failed =
      "c" ++ "/[info] : " ++ "all fine" ++ "\n" :=
  ⟨(classifier_formats_C5 "nginx" "raw" (some "stderr") (some "boom\n")).1 rfl,
   (classifier_formats_C5 "nginx" "raw" (some "stdout")
      (some "listening on 80\n")).2.1 (by decide),
   (classifier_formats_C5 "c" "Some ERROR here" none none).2.2.1 (by decide),
   (classifier_formats_C5 "c" "all fine" none none).2.2.2 (by decide)⟩

/-- C6: the message filter keeps every line when the filter list is unset
or empty, and otherwise keeps a line exactly when the line's lowercase form
contains at least one configured substring; with filters
`["timeout","fail"]` the line `"Request TIMEOUT after 5s"` is kept and
`"all good"` is dropped. -/
theorem message_filter_keep_C6 (line : String) (fs : List String) :
    shouldKeep none line = true
    ∧ shouldKeep (some []) line = true
    ∧ (fs ≠ [] →
        (shouldKeep (some fs) line = true ↔
          ∃ e ∈ fs, strContains (jsToLower line) e = true))
    ∧ shouldKeep (some ["timeout", "fail"]) "Request TIMEOUT after 5s" = true
    ∧ shouldKeep (some ["timeout", "fail"]) "all good" = false := by
  refine ⟨rfl, rfl, ?_, by decide, by decide⟩
  intro h
  have hlen : 0 < fs.length := List.length_pos.mpr h
  simp [shouldKeep, hlen, List.any_eq_true]

/-- C6 witness: the keep-iff-match equivalence instantiated at the spec's
example filter list and line. -/
theorem message_filter_keep_C6_witness :
    shouldKeep (some ["timeout", "fail"]) "Request TIMEOUT after 5s" = true ↔
      ∃ e ∈ ["timeout", "fail"],
        strContains (jsToLower "Request TIMEOUT after 5s") e = true :=
  (message_filter_keep_C6 "Request TIMEOUT after 5s"
    ["timeout", "fail"]).2.2.1 (by decide)

/-- C2: `ensureBlobAppendClient` recomputes the expected destination name
from the current UTC date and the date-partitioning flag
(`"<container>.log"` when disabled, `"<YYYY-MM-DD>/<container>.log"` when
enabled); the client it yields and stores is always bound to the expected
name, a missing or stale stored client is replaced through
`createIfNotExists`, and every remote append a flush issues targets the
expected name — hence after a date rollover no append targets the stale
name. -/
theorem ensure_destination_invariant_C2 (cfg : Config) (today : Date)
    (c : String) (st : State) (azureOk localOk : Bool) :
    (cfg.storeByDate = false → expectedDestBlobName cfg today c = c ++ ".log")
    ∧ (cfg.storeByDate = true →
        expectedDestBlobName cfg today c =
          getDateString today ++ "/" ++ c ++ ".log")
    ∧ (ensureBlobAppendClient cfg today c st.blobClients).1.name =
        expectedDestBlobName cfg today c
    ∧ (ensureBlobAppendClient cfg today c st.blobClients).2.1 c =
        some (ensureBlobAppendClient cfg today c st.blobClients).1
    ∧ ((∀ h, st.blobClients c = some h →
          h.name ≠ expectedDestBlobName cfg today c) →
        (ensureBlobAppendClient cfg today c st.blobClients).2.2 =
          [Event.createIfNotExists (expectedDestBlobName cfg today c)])
    ∧ (∀ n body, Event.azureAppend n body ∈
        (uploadLogBatch cfg today azureOk localOk c st).2.1 →
        n = expectedDestBlobName cfg today c)
    ∧ (∀ oldName, oldName ≠ expectedDestBlobName cfg today c →
        ∀ body, Event.azureAppend oldName body ∉
          (uploadLogBatch cfg today azureOk localOk c st).2.1) := by
  refine ⟨?_, ?_, ensure_name cfg today c st.blobClients,
    ensure_stores cfg today c st.blobClients,
    ensure_events_stale cfg today c st.blobClients,
    fun n body hmem =>
      upload_azure_append_name cfg today azureOk localOk c st n body hmem,
    fun oldName hold body hmem =>
      hold (upload_azure_append_name cfg today azureOk localOk c st oldName body hmem)⟩
  · intro h
    simp [expectedDestBlobName, h]
  · intro h
    simp [expectedDestBlobName, h]

/-- C2 witness: a rollover at the 2024-03-05 → 2024-03-06 boundary with a
stored client still bound to the old name: the stale client is replaced via
`createIfNotExists` for the new name and the flush sends no append to the
old name. -/
theorem ensure_destination_invariant_C2_witness :
    expectedDestBlobName cfgAzureDated dMar6 "c" =
      getDateString dMar6 ++ "/" ++ "c" ++ ".log"
    ∧ (ensureBlobAppendClient cfgAzureDated dMar6 "c" stRoll.blobClients).2.2 =
        [Event.createIfNotExists (expectedDestBlobName cfgAzureDated dMar6 "c")]
    ∧ ∀ body, Event.azureAppend "2024-03-05/c.log" body ∉
        (uploadLogBatch cfgAzureDated dMar6 true true "c" stRoll).2.1 :=
  ⟨(ensure_destination_invariant_C2 cfgAzureDated dMar6 "c" stRoll true true).2.1
      rfl,
   (ensure_destination_invariant_C2 cfgAzureDated dMar6 "c" stRoll true true).2.2.2.2.1
      (by
        intro h hEq
        have hval : stRoll.blobClients "c" =
            some ⟨"2024-03-05/c.log"⟩ := by decide
        rw [hval] at hEq
        cases Option.some.inj hEq
        decide),
   (ensure_destination_invariant_C2 cfgAzureDated dMar6 "c" stRoll true true).2.2.2.2.2.2
      "2024-03-05/c.log" (by decide)⟩

/-- C3: when a kept line makes a container's batch length reach the
50,000-record threshold, `onLogLine` triggers an immediate flush of that
container (and only that container) before returning; below the threshold
no flush is triggered; other containers' batches are untouched; and when
the sinks succeed the resident batch stays strictly below the threshold. -/
theorem threshold_flush_C3 (cfg : Config) (today : Date)
    (azureOk localOk : Bool) (c line : String) (p : JParse) (st : State)
    (hkeep : shouldKeep cfg.filterByMessage line = true) :
    (BATCH_SIZE_THRESHOLD ≤ (st.logBatches c).length + 1 →
      Event.flushCalled c ∈
        (onLogLine cfg today azureOk localOk c line p st).2.1)
    ∧ (∀ d, Event.flushCalled d ∈
        (onLogLine cfg today azureOk localOk c line p st).2.1 → d = c)
    ∧ ((st.logBatches c).length + 1 < BATCH_SIZE_THRESHOLD →
        ∀ d, Event.flushCalled d ∉
          (onLogLine cfg today azureOk localOk c line p st).2.1)
    ∧ (∀ d, d ≠ c →
        (onLogLine cfg today azureOk localOk c line p st).1.logBatches d =
          st.logBatches d)
    ∧ (azureOk = true → localOk = true →
        (st.logBatches c).length < BATCH_SIZE_THRESHOLD →
        ((onLogLine cfg today azureOk localOk c line p st).1.logBatches c).length <
          BATCH_SIZE_THRESHOLD) := by
  have hlen : ((addToLogBatch c (classify c line p) st.logBatches) c).length =
      (st.logBatches c).length + 1 := by
    simp [addToLogBatch]
  by_cases hth : BATCH_SIZE_THRESHOLD ≤ (st.logBatches c).length + 1
  · have hon : onLogLine cfg today azureOk localOk c line p st =
        ((uploadLogBatch cfg today azureOk localOk c
            { st with
              logBatches := addToLogBatch c (classify c line p) st.logBatches }).1,
          Event.flushCalled c ::
            (uploadLogBatch cfg today azureOk localOk c
              { st with
                logBatches := addToLogBatch c (classify c line p) st.logBatches }).2.1,
          (uploadLogBatch cfg today azureOk localOk c
            { st with
              logBatches := addToLogBatch c (classify c line p) st.logBatches }).2.2) := by
      unfold onLogLine
      simp only [hkeep, if_true]
      rw [if_pos (by simpa [hlen] using hth)]
    refine ⟨fun _ => ?_, fun d hd => ?_, fun hlt => absurd hth (by omega),
      fun d hd => ?_, fun hA hL _ => ?_⟩
    · rw [hon]
      exact List.mem_cons_self _ _
    · rw [hon] at hd
      rcases List.mem_cons.mp hd with h | h
      · exact (Event.flushCalled.inj h.symm).symm ▸ rfl
      · exact absurd h (upload_no_flushCalled cfg today azureOk localOk c d _)
    · rw [hon]
      rw [upload_preserves_other cfg today azureOk localOk c d _ hd]
      simp [addToLogBatch, hd]
    · rw [hon]
      subst hA
      subst hL
      rw [upload_clears]
      simp [BATCH_SIZE_THRESHOLD]
  · have hon : onLogLine cfg today azureOk localOk c line p st =
        ({ st with
            logBatches := addToLogBatch c (classify c line p) st.logBatches },
          [], true) := by
      unfold onLogLine
      simp only [hkeep, if_true]
      rw [if_neg (by simpa [hlen] using hth)]
    refine ⟨fun h => absurd h hth, fun d hd => ?_, fun _ d hd => ?_,
      fun d hd => ?_, fun _ _ _ => ?_⟩
    · rw [hon] at hd
      simp at hd
    · rw [hon] at hd
      simp at hd
    · rw [hon]
      simp [addToLogBatch, hd]
    · rw [hon]
      simp only [hlen]
      omega

/-- C3 witness: with a batch one record below the threshold and no message
filter, ingesting one more line triggers an in-line flush of container
`"c"`. -/
theorem threshold_flush_C3_witness :
    shouldKeep cfgAzure.filterByMessage "line" = true
    ∧ Event.flushCalled "c" ∈
        (onLogLine cfgAzure dMar5 true true "c" "line" .failed stBig).2.1 :=
  ⟨by decide,
   (threshold_flush_C3 cfgAzure dMar5 true true "c" "line" .failed stBig
      (by decide)).1
     (by
       have hlen : (stBig.logBatches "c").length = 49999 := by
         show (if ("c" : String) = "c" then List.replicate 49999 recX
           else []).length = 49999
         rw [if_pos rfl, List.length_replicate]
       rw [hlen]
       decide)⟩

/-- C4 counterexample: with the remote sink active and the append failing,
the flush propagates the exception and the batch for `"c"` is NOT cleared,
contrary to the claim that a failed flush still clears the batch. -/
theorem failed_flush_drops_counterexample_C4 :
    (uploadLogBatch cfgAzure dMar5 false true "c" stOne).2.2 = false
    ∧ (uploadLogBatch cfgAzure dMar5 false true "c" stOne).1.logBatches "c" ≠
        [] := by
  decide

/-- C4 (amended): when a sink write during a container's flush fails
(remote or local), the exception propagates out of `uploadLogBatch`
(completion flag `false`) and the batch is NOT cleared: every container's
resident batch is exactly what it was before the attempt, so the records
are retried at the next flush rather than dropped. -/
theorem failed_flush_retains_batch_C4 (cfg : Config) (today : Date)
    (azureOk localOk : Bool) (c : String) (st : State)
    (hfail : (uploadLogBatch cfg today azureOk localOk c st).2.2 = false) :
    ∀ d, (uploadLogBatch cfg today azureOk localOk c st).1.logBatches d =
      st.logBatches d :=
  fun d =>
    congrFun (upload_fail_keeps_batches cfg today azureOk localOk c st hfail) d

/-- C4 witness: a concrete failing remote append leaves the one-record
batch of `"c"` resident. -/
theorem failed_flush_retains_batch_C4_witness :
    (uploadLogBatch cfgAzure dMar5 false true "c" stOne).2.2 = false
    ∧ (uploadLogBatch cfgAzure dMar5 false true "c" stOne).1.logBatches "c" =
        stOne.logBatches "c" :=
  ⟨by decide,
   failed_flush_retains_batch_C4 cfgAzure dMar5 false true "c" stOne
     (by decide) "c"⟩

/-- C7 counterexample: flushing the one-record batch `["x"]` to the local
sink appends the body `"x\n\n"` to the file — the newline-joined contents
plus TWO trailing newlines (`appendToLocalLogFile` adds a second one) — so
the content passed to the local sink is not the joined contents with
exactly one trailing newline. -/
theorem local_body_newline_counterexample_C7 :
    (uploadLogBatch cfgLocal dMar5 true true "c" stOne).2.1 =
      [Event.ensureDir "/kubernetes-logs/2024-03-05",
       Event.localAppend "/kubernetes-logs/2024-03-05/c.log" "x\n\n"]
    ∧ "x\n\n" ≠
        String.intercalate "\n" ((stOne.logBatches "c").map LogRecord.content) ++
          "\n" := by
  decide

/-- C7 (amended): for every non-empty batch being flushed, the remote sink
receives exactly one append call whose body is the record contents joined
with newline separators plus exactly one trailing newline; the local sink
receives exactly one file-append call whose body is that same joined
content plus one additional trailing newline appended by
`appendToLocalLogFile`. -/
theorem flush_sink_bodies_C7 (cfg : Config) (today : Date)
    (azureOk localOk : Bool) (c : String) (st : State)
    (hne : 0 < (st.logBatches c).length) :
    (destAzure cfg.logOutputDestination = true →
      ((uploadLogBatch cfg today azureOk localOk c st).2.1).filter isAzureAppendEv =
        [Event.azureAppend (expectedDestBlobName cfg today c)
          (String.intercalate "\n" ((st.logBatches c).map LogRecord.content) ++
            "\n")])
    ∧ (destLocal cfg.logOutputDestination = true →
        (destAzure cfg.logOutputDestination = true → azureOk = true) →
        ((uploadLogBatch cfg today azureOk localOk c st).2.1).filter isLocalAppendEv =
          [Event.localAppend
            (pathJoin LOCAL_LOG_DIRECTORY
              (getDateString today ++ "/" ++ c ++ ".log"))
            (String.intercalate "\n" ((st.logBatches c).map LogRecord.content) ++
              "\n" ++ "\n")]) := by
  have hens := ensure_name cfg today c st.blobClients
  constructor
  · intro hA
    rcases ensure_events_cases cfg today c st.blobClients with hev | hev <;>
    cases hL : destLocal cfg.logOutputDestination <;>
    cases azureOk <;> cases localOk <;>
    simp_all [uploadLogBatch, hne, hA, hL, appendToLocalLogFile,
      isAzureAppendEv, isLocalAppendEv, List.filter_append]
  · intro hL hreach
    rcases ensure_events_cases cfg today c st.blobClients with hev | hev <;>
    cases hA : destAzure cfg.logOutputDestination <;>
    cases azureOk <;> cases localOk <;>
    simp_all [uploadLogBatch, hne, hA, hL, appendToLocalLogFile,
      isAzureAppendEv, isLocalAppendEv, List.filter_append,
      str_append_assoc]

/-- C7 witness: the end-to-end nginx example in dual-sink mode — the remote
body is the record content plus one newline, sent to `"nginx.log"`; the
local file body carries one extra newline. -/
theorem flush_sink_bodies_C7_witness :
    0 < (stNginx.logBatches "nginx").length
    ∧ ((uploadLogBatch cfgBoth dMar5 true true "nginx" stNginx).2.1).filter
        isAzureAppendEv =
      [Event.azureAppend (expectedDestBlobName cfgBoth dMar5 "nginx")
        (String.intercalate "\n"
          ((stNginx.logBatches "nginx").map LogRecord.content) ++ "\n")]
    ∧ ((uploadLogBatch cfgBoth dMar5 true true "nginx" stNginx).2.1).filter
        isLocalAppendEv =
      [Event.localAppend
        (pathJoin LOCAL_LOG_DIRECTORY
          (getDateString dMar5 ++ "/" ++ "nginx" ++ ".log"))
        (String.intercalate "\n"
          ((stNginx.logBatches "nginx").map LogRecord.content) ++ "\n" ++ "\n")] :=
  ⟨by decide,
   (flush_sink_bodies_C7 cfgBoth dMar5 true true "nginx" stNginx (by decide)).1
     rfl,
   (flush_sink_bodies_C7 cfgBoth dMar5 true true "nginx" stNginx (by decide)).2
     rfl (fun _ => rfl)⟩

/-- C8 counterexample: with date partitioning disabled the remote
destination is `"c.log"`, but the single local file append of the same
flush targets the dated path `"/kubernetes-logs/2024-03-05/c.log"` — the
local path is not derived from the same destination-name logic. -/
theorem local_path_flag_counterexample_C8 :
    cfgBoth.storeByDate = false
    ∧ expectedDestBlobName cfgBoth dMar5 "c" = "c.log"
    ∧ ((uploadLogBatch cfgBoth dMar5 true true "c" stOne).2.1).filter
        isLocalAppendEv =
      [Event.localAppend "/kubernetes-logs/2024-03-05/c.log" "x\n\n"]
    ∧ "/kubernetes-logs/2024-03-05/c.log" ≠
        pathJoin LOCAL_LOG_DIRECTORY "c.log" := by
  decide

/-- C8 (amended): when the local sink is active (and reached — a remote
failure in dual mode aborts first), every flush appends to the local path
`LOCAL_LOG_DIRECTORY/<YYYY-MM-DD>/<container>.log` regardless of the
date-partitioning flag, creating the parent directory as needed. -/
theorem local_sink_dated_path_C8 (cfg : Config) (today : Date)
    (azureOk localOk : Bool) (c : String) (st : State)
    (hne : 0 < (st.logBatches c).length)
    (hloc : destLocal cfg.logOutputDestination = true)
    (hreach : destAzure cfg.logOutputDestination = true → azureOk = true) :
    Event.ensureDir (pathDirname (pathJoin LOCAL_LOG_DIRECTORY
        (getDateString today ++ "/" ++ c ++ ".log"))) ∈
      (uploadLogBatch cfg today azureOk localOk c st).2.1
    ∧ (∃ body, Event.localAppend (pathJoin LOCAL_LOG_DIRECTORY
        (getDateString today ++ "/" ++ c ++ ".log")) body ∈
          (uploadLogBatch cfg today azureOk localOk c st).2.1)
    ∧ (∀ p body, Event.localAppend p body ∈
        (uploadLogBatch cfg today azureOk localOk c st).2.1 →
        p = pathJoin LOCAL_LOG_DIRECTORY
          (getDateString today ++ "/" ++ c ++ ".log")) := by
  rcases ensure_events_cases cfg today c st.blobClients with hev | hev <;>
  cases hA : destAzure cfg.logOutputDestination <;>
  cases azureOk <;> cases localOk <;>
  simp_all [uploadLogBatch, hne, hA, hloc, appendToLocalLogFile, pathJoin]

/-- C8 witness: a concrete local-only flush with partitioning disabled
still writes beneath the dated directory. -/
theorem local_sink_dated_path_C8_witness :
    0 < (stOne.logBatches "c").length
    ∧ Event.ensureDir (pathDirname (pathJoin LOCAL_LOG_DIRECTORY
        (getDateString dMar5 ++ "/" ++ "c" ++ ".log"))) ∈
      (uploadLogBatch cfgLocal dMar5 true true "c" stOne).2.1 :=
  ⟨by decide,
   (local_sink_dated_path_C8 cfgLocal dMar5 true true "c" stOne (by decide)
      rfl (fun h => by simp [cfgLocal, destAzure] at h)).1⟩

/-- C9 counterexample: when the final flush pass throws, the process still
exits with status 0, not 1 as claimed (`gracefulShutdown` always calls
`process.exit(0)` in its `finally` block). -/
theorem shutdown_exit_code_counterexample_C9 :
    (uploadAllLogBatches cfgAzure dMar5 okNone ["c"] stOne).2.2 = false
    ∧ (gracefulShutdown cfgAzure dMar5 okNone ["c"] stOne).2.2.2 = 0
    ∧ (gracefulShutdown cfgAzure dMar5 okNone ["c"] stOne).2.2.2 ≠ 1 := by
  decide

/-- C9 (amended): on a termination signal the process performs one final
flush pass over all containers and then terminates with exit status 0 in
every case; when the final flush throws, the error is logged
(`"Error during shutdown:"`) and the process still terminates (the
`finally` block logs and exits). -/
theorem shutdown_exit_zero_C9 (cfg : Config) (today : Date)
    (okOf : String → Bool × Bool) (containers : List String) (st : State) :
    (gracefulShutdown cfg today okOf containers st).2.2.2 = 0
    ∧ (gracefulShutdown cfg today okOf containers st).2.1 =
        (uploadAllLogBatches cfg today okOf containers st).2.1
    ∧ (gracefulShutdown cfg today okOf containers st).1 =
        (uploadAllLogBatches cfg today okOf containers st).1
    ∧ ((uploadAllLogBatches cfg today okOf containers st).2.2 = false →
        "Error during shutdown:" ∈
          (gracefulShutdown cfg today okOf containers st).2.2.1)
    ∧ ((uploadAllLogBatches cfg today okOf containers st).2.2 = true →
        "All log batches have been uploaded." ∈
          (gracefulShutdown cfg today okOf containers st).2.2.1)
    ∧ "Graceful shutdown completed. Exiting." ∈
        (gracefulShutdown cfg today okOf containers st).2.2.1 := by
  by_cases hok : (uploadAllLogBatches cfg today okOf containers st).2.2 <;>
  simp_all [gracefulShutdown]

/-- C9 witness: a concrete shutdown with a failing remote sink logs the
shutdown error and exits 0. -/
theorem shutdown_exit_zero_C9_witness :
    (uploadAllLogBatches cfgAzure dMar5 okNone ["c"] stOne).2.2 = false
    ∧ "Error during shutdown:" ∈
        (gracefulShutdown cfgAzure dMar5 okNone ["c"] stOne).2.2.1 :=
  ⟨by decide,
   (shutdown_exit_zero_C9 cfgAzure dMar5 okNone ["c"] stOne).2.2.2.1
     (by decide)⟩

/-- C10 witness: flushing `["a", "b", "d"]` where the remote append fails
for `"b"` stops the pass at `"b"` and leaves the batch of `"d"` resident
and unchanged. -/
theorem sequential_flush_pass_aborts_C10_witness :
    (uploadAllLogBatches cfgAzure dMar5 okB ["a"] st3).2.2 = true
    ∧ (uploadAllLogBatches cfgAzure dMar5 okB (["a"] ++ "b" :: ["d"]) st3).2.2 =
        false
    ∧ (uploadAllLogBatches cfgAzure dMar5 okB
        (["a"] ++ "b" :: ["d"]) st3).1.logBatches "d" = st3.logBatches "d" := by
  have h := sequential_flush_pass_aborts_C10 cfgAzure dMar5 okB ["a"] "b" ["d"]
    st3 (by decide) (by decide)
  exact ⟨by decide, h.1, h.2 "d" (by decide) (by decide) (by decide)⟩

end KLL
